import Mathlib

/-!
Verification of the Raw-Organizer program (src/raw_organizer.py).

The program scans a directory tree for JPG and RAW image files, matches
them by filename stem, computes the target files that lack a same-stem
anchor file (orphans), and deletes the orphans (dry-run by default,
interactive confirmation for live deletion).

Modelling conventions:
* a filesystem path is an `FPath`: a parent-directory component (opaque
  to the program, only its equality matters) plus a final name component;
* the directory tree handed to `rglob` is a `List FPath`, in traversal
  order, containing exactly the regular files of the tree;
* `Path.stem` / `Path.suffix` of Python's pathlib are `pyStem` /
  `pySuffix` on the name component, following pathlib's definition
  (position of the last dot, guarded by `0 < i < len - 1`);
* `str.lower` is `lowerStr` (character-wise `Char.toLower`, which agrees
  with Python on the ASCII extensions the program compares against);
* filesystem deletion (`Path.unlink`) is removal from the file list; a
  per-file failure oracle `permFail` models permission/I-O errors, and
  unlinking a non-existent path fails as it does in Python;
* printed notices that the claims mention are modelled as `DelEvent`
  values; the driver `main` is modelled as `mainRun`, returning the
  control-flow outcome together with the final filesystem state.
-/

/-- Model of a filesystem path: an opaque parent-directory part and the
final name component.  Only the name component enters stem/suffix
computations; the parent part keeps same-named files in different
directories distinct, as real paths are. -/
structure FPath where
  parent : String
  name : String
deriving DecidableEq, Repr

/-- Index of the last occurrence of a dot in a character list, the
model of Python's `name.rfind(".")` (with `none` for "not found"). -/
def lastDot : List Char → Option Nat
  | [] => none
  | c :: cs =>
    match lastDot cs with
    | some i => some (i + 1)
    | none => if c = '.' then some 0 else none

/-- Model of pathlib's `Path.suffix` on the final name component:
the substring from the last dot on, provided that dot is neither the
first nor the last character; otherwise the empty string. -/
def pySuffix (nm : String) : String :=
  match lastDot nm.data with
  | none => ""
  | some i => if 0 < i ∧ i < nm.data.length - 1 then ⟨nm.data.drop i⟩ else ""

/-- Model of pathlib's `Path.stem` on the final name component: the
name with `pySuffix` removed. -/
def pyStem (nm : String) : String :=
  match lastDot nm.data with
  | none => nm
  | some i => if 0 < i ∧ i < nm.data.length - 1 then ⟨nm.data.take i⟩ else nm

/-- Model of Python's `str.lower` (character-wise lowering; identical to
Python on the ASCII strings the program compares). -/
def lowerStr (s : String) : String := ⟨s.data.map Char.toLower⟩

/-- The fixed RAW extension set of `RawOrganizer.__init__`
(src/raw_organizer.py line 26). -/
def raw_extensions : List String :=
  [".cr2", ".cr3", ".nef", ".arw", ".dng", ".orf", ".rw2", ".pef", ".srw", ".x3f"]

/-- The JPEG extension list of `discover_files`
(src/raw_organizer.py line 38). -/
def jpg_extensions : List String := [".jpg", ".jpeg"]

/-- Classification outcome of one file in the scan loop of
`discover_files` (src/raw_organizer.py lines 35-41). -/
inductive FileClass where
  | jpeg
  | raw
  | ignored
deriving DecidableEq, Repr

/-- The per-file classification test of `discover_files`
(src/raw_organizer.py lines 37-41): lower-cased suffix against the JPEG
list first, then the RAW set, else ignored. -/
def classify (p : FPath) : FileClass :=
  let ext := lowerStr (pySuffix p.name)
  if ext ∈ jpg_extensions then .jpeg
  else if ext ∈ raw_extensions then .raw
  else .ignored

/-- Embedding of `RawOrganizer.discover_files` (src/raw_organizer.py
lines 28-49): one pass over the regular files in traversal order,
appending each to the JPG or the RAW collection according to its
lower-cased extension, silently dropping every other file. -/
def discover_files : List FPath → List FPath × List FPath
  | [] => ([], [])
  | p :: rest =>
    let r := discover_files rest
    match classify p with
    | .jpeg => (p :: r.1, r.2)
    | .raw => (r.1, p :: r.2)
    | .ignored => r

/-- Embedding of `RawOrganizer.get_base_name` (src/raw_organizer.py
lines 51-53): the pathlib stem of the file. -/
def get_base_name (p : FPath) : String := pyStem p.name

/-- Embedding of `RawOrganizer.find_matches` (src/raw_organizer.py
lines 55-65): the set of stems of target files whose stem also occurs
as the stem of some anchor file. -/
def find_matches (anchor_files target_files : List FPath) : Finset String :=
  let anchor_base_names := (anchor_files.map get_base_name).toFinset
  ((target_files.filter
      (fun t => decide (get_base_name t ∈ anchor_base_names))).map
    get_base_name).toFinset

/-- Embedding of `RawOrganizer.find_orphaned_files` (src/raw_organizer.py
lines 67-77): the target files, in order, whose stem is not in the
`find_matches` set. -/
def find_orphaned_files (anchor_files target_files : List FPath) : List FPath :=
  let matching_bases := find_matches anchor_files target_files
  target_files.filter (fun t => decide (get_base_name t ∉ matching_bases))

/-- Notices printed by `delete_files` (src/raw_organizer.py lines 88-93). -/
inductive DelEvent where
  | deleted (p : FPath)
  | wouldDelete (p : FPath)
  | errorDeleting (p : FPath)
deriving DecidableEq, Repr

/-- Embedding of `RawOrganizer.delete_files` (src/raw_organizer.py
lines 79-95), threading the filesystem state explicitly.  Arguments:
the failure oracle for `unlink` (permission / I-O errors), the
`dry_run` flag, the current filesystem, and the files to delete.
Returns the new filesystem, the `deleted_files` accumulator and the
notices, in loop order.  In a dry run each file is recorded with a
would-delete notice and nothing is touched; live, `unlink` succeeds
when the file exists and the oracle does not fail it (the file is then
removed and recorded), and any failure is caught, noted, and the loop
continues with the next file. -/
def delete_files (permFail : FPath → Bool) (dry_run : Bool) :
    List FPath → List FPath → List FPath × List FPath × List DelEvent
  | fs, [] => (fs, [], [])
  | fs, p :: rest =>
    if dry_run then
      let r := delete_files permFail dry_run fs rest
      (r.1, p :: r.2.1, .wouldDelete p :: r.2.2)
    else if p ∈ fs ∧ permFail p = false then
      let r := delete_files permFail dry_run (fs.erase p) rest
      (r.1, p :: r.2.1, .deleted p :: r.2.2)
    else
      let r := delete_files permFail dry_run fs rest
      (r.1, r.2.1, .errorDeleting p :: r.2.2)

/-- The result dictionary of `RawOrganizer.organize_files`
(src/raw_organizer.py lines 131-138). -/
structure RunResult where
  anchor_files : List FPath
  target_files : List FPath
  orphaned_files : List FPath
  deleted_files : List FPath
  anchor_type : String
  target_type : String
deriving DecidableEq, Repr

/-- Embedding of `RawOrganizer.organize_files` (src/raw_organizer.py
lines 97-138).  Selects anchor and target collections from the
lower-cased anchor type (`none` models the `ValueError` on any other
string), computes the orphans, and only when orphans exist and the run
is live calls `delete_files`; the instance accumulator
`self.deleted_files` starts empty, so the reported deleted list is the
live deletion result, and stays empty in a dry run or when there are no
orphans.  Returns the new filesystem together with the result record. -/
def organize_files (permFail : FPath → Bool) (fs : List FPath)
    (jpg_files raw_files : List FPath) (anchor_type : String)
    (dry_run : Bool) : Option (List FPath × RunResult) :=
  let sel : Option (List FPath × List FPath × String × String) :=
    if lowerStr anchor_type = "jpg" then some (jpg_files, raw_files, "JPG", "RAW")
    else if lowerStr anchor_type = "raw" then some (raw_files, jpg_files, "RAW", "JPG")
    else none
  match sel with
  | none => none
  | some (anchor_files, target_files, anchor_name, target_name) =>
    let orphaned_files := find_orphaned_files anchor_files target_files
    if dry_run = false ∧ orphaned_files ≠ [] then
      let r := delete_files permFail false fs orphaned_files
      some (r.1,
        { anchor_files := anchor_files, target_files := target_files,
          orphaned_files := orphaned_files, deleted_files := r.2.1,
          anchor_type := anchor_name, target_type := target_name })
    else
      some (fs,
        { anchor_files := anchor_files, target_files := target_files,
          orphaned_files := orphaned_files, deleted_files := [],
          anchor_type := anchor_name, target_type := target_name })

/-- Control-flow outcome of the driver `main` (src/raw_organizer.py
lines 164-208). -/
inductive MainOutcome where
  | dirNotFound
  | nothingFound
  | cancelled
  | errored
  | completed (r : RunResult)
deriving DecidableEq, Repr

/-- Process exit code of each driver outcome: the top-level handler
calls `sys.exit(1)` on an exception (missing directory, `ValueError`);
every other path falls off `main` with exit code 0. -/
def exitCode : MainOutcome → Nat
  | .dirNotFound => 1
  | .errored => 1
  | _ => 0

/-- Embedding of the driver `main` (src/raw_organizer.py lines 164-208).
Arguments: whether the positional directory exists, the regular files of
its tree in traversal order, the `--anchor` argument, the `--execute`
flag (dry run is the default and is overridden by it), the interactive
confirmation line, and the unlink failure oracle.  Returns the outcome
and the final filesystem.  A missing directory raises before any
scanning; an empty scan returns before any orphan work; live mode asks
for confirmation and any answer other than case-insensitive `yes`
cancels before `organize_files` is invoked. -/
def mainRun (dirExists : Bool) (files : List FPath) (anchorArg : String)
    (execute : Bool) (userInput : String) (permFail : FPath → Bool) :
    MainOutcome × List FPath :=
  if dirExists = false then (.dirNotFound, files)
  else
    let scan := discover_files files
    if scan.1 = [] ∧ scan.2 = [] then (.nothingFound, files)
    else
      let dry_run := !execute
      if dry_run = false ∧ lowerStr userInput ≠ "yes" then (.cancelled, files)
      else
        match organize_files permFail files scan.1 scan.2 anchorArg dry_run with
        | none => (.errored, files)
        | some (fs', r) => (.completed r, fs')

/-- Sample path: a.jpg at the tree root. -/
def aJpg : FPath := ⟨"", "a.jpg"⟩

/-- Sample path: a.cr2 at the tree root. -/
def aCr2 : FPath := ⟨"", "a.cr2"⟩

/-- Sample path: b.cr2 at the tree root. -/
def bCr2 : FPath := ⟨"", "b.cr2"⟩

/-- Sample path: c.cr2 at the tree root. -/
def cCr2 : FPath := ⟨"", "c.cr2"⟩

/-- Sample failure oracle: unlinking b.cr2 raises a permission error,
every other unlink succeeds. -/
def pfB : FPath → Bool := fun p => decide (p = bCr2)

theorem mem_find_matches (anchor_files target_files : List FPath) (s : String) :
    s ∈ find_matches anchor_files target_files ↔
      s ∈ target_files.map get_base_name ∧ s ∈ anchor_files.map get_base_name := by
  simp only [find_matches, List.mem_toFinset, List.mem_map, List.mem_filter,
    decide_eq_true_eq]
  constructor
  · rintro ⟨x, ⟨hx, hax⟩, rfl⟩
    exact ⟨⟨x, hx, rfl⟩, hax⟩
  · rintro ⟨⟨x, hx, rfl⟩, hax⟩
    exact ⟨x, ⟨hx, hax⟩, rfl⟩

theorem orphan_filter_eq (anchor_files target_files : List FPath) :
    find_orphaned_files anchor_files target_files
      = target_files.filter
          (fun t =>
            decide (get_base_name t ∉ (anchor_files.map get_base_name).toFinset)) := by
  unfold find_orphaned_files
  refine List.filter_congr fun t ht => ?_
  rw [decide_eq_decide, not_iff_not, mem_find_matches, List.mem_toFinset]
  exact and_iff_right (List.mem_map_of_mem get_base_name ht)

theorem discover_eq_filter (l : List FPath) :
    discover_files l
      = (l.filter (fun p => decide (classify p = .jpeg)),
         l.filter (fun p => decide (classify p = .raw))) := by
  induction l with
  | nil => rfl
  | cons p rest ih =>
    simp only [discover_files, ih]
    cases h : classify p <;> simp [List.filter_cons, h]

theorem discover_filter (l : List FPath) (q : FPath → Bool) :
    discover_files (l.filter q)
      = ((discover_files l).1.filter q, (discover_files l).2.filter q) := by
  simp only [discover_eq_filter, List.filter_filter]
  exact Prod.ext (List.filter_congr fun x _ => Bool.and_comm _ _)
    (List.filter_congr fun x _ => Bool.and_comm _ _)

theorem discover_disjoint (files : List FPath) :
    ∀ p ∈ (discover_files files).1, p ∉ (discover_files files).2 := by
  intro p hp hq
  rw [discover_eq_filter] at hp hq
  simp only [List.mem_filter, decide_eq_true_eq] at hp hq
  rw [hp.2] at hq
  cases hq.2

theorem orphans_subset (anchor_files target_files : List FPath) :
    ∀ p ∈ find_orphaned_files anchor_files target_files, p ∈ target_files := by
  intro p hp
  rw [orphan_filter_eq] at hp
  exact (List.mem_filter.mp hp).1

theorem delete_files_dry (permFail : FPath → Bool) (fs l : List FPath) :
    delete_files permFail true fs l = (fs, l, l.map DelEvent.wouldDelete) := by
  induction l with
  | nil => rfl
  | cons p rest ih => simp [delete_files, ih]

theorem delete_files_live_fs (fs l : List FPath) (hnd : fs.Nodup) :
    (delete_files (fun _ => false) false fs l).1
      = fs.filter (fun q => decide (q ∉ l)) := by
  induction l generalizing fs hnd with
  | nil => simp [delete_files]
  | cons p rest ih =>
    by_cases hp : p ∈ fs
    · have hstep :
          (delete_files (fun _ => false) false fs (p :: rest)).1
            = (delete_files (fun _ => false) false (fs.erase p) rest).1 := by
        simp [delete_files, hp]
      rw [hstep, ih (fs.erase p) (hnd.erase p), hnd.erase_eq_filter p,
        List.filter_filter]
      refine List.filter_congr fun q _ => ?_
      by_cases h1 : q = p <;> by_cases h2 : q ∈ rest <;>
        simp [h1, h2, List.mem_cons]
    · have hstep :
          (delete_files (fun _ => false) false fs (p :: rest)).1
            = (delete_files (fun _ => false) false fs rest).1 := by
        simp [delete_files, hp]
      rw [hstep, ih fs hnd]
      refine List.filter_congr fun q hq => ?_
      have hqp : q ≠ p := fun h => hp (h ▸ hq)
      simp [hqp, List.mem_cons]

theorem orphan_rescan (anchor_files target_files : List FPath)
    (h : ∀ a ∈ anchor_files, a ∉ find_orphaned_files anchor_files target_files) :
    find_orphaned_files
      (anchor_files.filter
        (fun p => decide (p ∉ find_orphaned_files anchor_files target_files)))
      (target_files.filter
        (fun p => decide (p ∉ find_orphaned_files anchor_files target_files)))
      = [] := by
  have ha :
      anchor_files.filter
          (fun p => decide (p ∉ find_orphaned_files anchor_files target_files))
        = anchor_files :=
    List.filter_eq_self.mpr fun a haf => by simpa using h a haf
  rw [ha, orphan_filter_eq]
  refine List.filter_eq_nil_iff.mpr fun t ht => ?_
  rcases List.mem_filter.mp ht with ⟨htt, hto⟩
  simp only [decide_eq_true_eq] at hto ⊢
  intro hcon
  apply hto
  rw [orphan_filter_eq]
  exact List.mem_filter.mpr ⟨htt, by simpa using hcon⟩

/-- C1: the orphan computation returns exactly the ordered sub-sequence of
target entries whose stem is not among the anchor stems, preserving the
target order; no target whose stem occurs among anchor stems is in the
orphan list, and every target whose stem occurs in no anchor stem is. -/
theorem orphan_list_spec (anchor_files target_files : List FPath) :
    find_orphaned_files anchor_files target_files
      = target_files.filter
          (fun t =>
            decide (get_base_name t ∉ (anchor_files.map get_base_name).toFinset)) ∧
    (∀ t ∈ target_files,
        (∃ a ∈ anchor_files, get_base_name a = get_base_name t) →
        t ∉ find_orphaned_files anchor_files target_files) ∧
    (∀ t ∈ target_files,
        (∀ a ∈ anchor_files, get_base_name a ≠ get_base_name t) →
        t ∈ find_orphaned_files anchor_files target_files) := by
  refine ⟨orphan_filter_eq _ _, ?_, ?_⟩
  · rintro t ht ⟨a, ha, hst⟩ hmem
    rw [orphan_filter_eq] at hmem
    rcases List.mem_filter.mp hmem with ⟨-, hdec⟩
    simp only [decide_eq_true_eq, List.mem_toFinset, List.mem_map] at hdec
    exact hdec ⟨a, ha, hst⟩
  · intro t ht hall
    rw [orphan_filter_eq]
    refine List.mem_filter.mpr ⟨ht, ?_⟩
    simp only [decide_eq_true_eq, List.mem_toFinset, List.mem_map, not_exists]
    rintro a ⟨ha, hst⟩
    exact hall a ha hst

/-- Witness for C1 at the spec's Scenario A: anchor a.jpg, targets
a.cr2 and b.cr2; the matched a.cr2 is never an orphan and the unmatched
b.cr2 is one. -/
theorem orphan_list_spec_app :
    find_orphaned_files [aJpg] [aCr2, bCr2]
      = [aCr2, bCr2].filter
          (fun t =>
            decide (get_base_name t ∉ ([aJpg].map get_base_name).toFinset)) ∧
    aCr2 ∉ find_orphaned_files [aJpg] [aCr2, bCr2] ∧
    bCr2 ∈ find_orphaned_files [aJpg] [aCr2, bCr2] :=
  ⟨(orphan_list_spec [aJpg] [aCr2, bCr2]).1,
   (orphan_list_spec [aJpg] [aCr2, bCr2]).2.1 aCr2 (by decide)
     ⟨aJpg, by decide, by decide⟩,
   (orphan_list_spec [aJpg] [aCr2, bCr2]).2.2 bCr2 (by decide) (by decide)⟩

/-- C2 counterexample: with one orphaned RAW file and a dry run, the
pipeline reports the orphan but its reported deleted list is empty, not
the attempted set of all orphans. -/
theorem dry_run_report_cex :
    (organize_files (fun _ => false) [bCr2] [] [bCr2] "jpg" true).map
        (fun r => r.2.orphaned_files) = some [bCr2] ∧
    (organize_files (fun _ => false) [bCr2] [] [bCr2] "jpg" true).map
        (fun r => r.2.deleted_files) = some [] ∧
    ([] : List FPath) ≠ [bCr2] := by decide

/-- C2 amended: the delete_files stage itself, under dry run, emits a
would-delete notice for every file, records each as deleted and mutates
no filesystem state; but organize_files never invokes delete_files in a
dry run, so the returned and reported deleted list of a dry run is
empty rather than the attempted orphan set. -/
theorem dry_run_stage_behavior :
    (∀ (permFail : FPath → Bool) (fs l : List FPath),
        delete_files permFail true fs l = (fs, l, l.map DelEvent.wouldDelete)) ∧
    (∀ (permFail : FPath → Bool) (fs jpg_files raw_files : List FPath)
        (anchor_type : String) (fs' : List FPath) (r : RunResult),
        organize_files permFail fs jpg_files raw_files anchor_type true
          = some (fs', r) →
        fs' = fs ∧ r.deleted_files = []) := by
  refine ⟨delete_files_dry, ?_⟩
  intro permFail fs jpg_files raw_files anchor_type fs' r h
  unfold organize_files at h
  by_cases h1 : lowerStr anchor_type = "jpg"
  · rw [if_pos h1] at h
    have h' : (some (fs,
        ({ anchor_files := jpg_files, target_files := raw_files,
           orphaned_files := find_orphaned_files jpg_files raw_files,
           deleted_files := [], anchor_type := "JPG",
           target_type := "RAW" } : RunResult))
        : Option (List FPath × RunResult)) = some (fs', r) := h
    simp only [Option.some.injEq, Prod.mk.injEq] at h'
    obtain ⟨rfl, rfl⟩ := h'
    exact ⟨rfl, rfl⟩
  · by_cases h2 : lowerStr anchor_type = "raw"
    · rw [if_neg h1, if_pos h2] at h
      have h' : (some (fs,
          ({ anchor_files := raw_files, target_files := jpg_files,
             orphaned_files := find_orphaned_files raw_files jpg_files,
             deleted_files := [], anchor_type := "RAW",
             target_type := "JPG" } : RunResult))
          : Option (List FPath × RunResult)) = some (fs', r) := h
      simp only [Option.some.injEq, Prod.mk.injEq] at h'
      obtain ⟨rfl, rfl⟩ := h'
      exact ⟨rfl, rfl⟩
    · rw [if_neg h1, if_neg h2] at h
      exact Option.noConfusion h

/-- Witness for C2's amended claim: a concrete dry run of delete_files
records the file without touching the filesystem, and a concrete dry
run of organize_files leaves the filesystem alone and reports an empty
deleted list. -/
theorem dry_run_stage_behavior_app :
    delete_files (fun _ => false) true [cCr2] [cCr2]
      = ([cCr2], [cCr2], [DelEvent.wouldDelete cCr2]) ∧
    ([cCr2] = ([cCr2] : List FPath) ∧
      ({ anchor_files := [], target_files := [cCr2],
         orphaned_files := [cCr2], deleted_files := [],
         anchor_type := "JPG", target_type := "RAW" } : RunResult).deleted_files
        = []) :=
  ⟨dry_run_stage_behavior.1 (fun _ => false) [cCr2] [cCr2],
   dry_run_stage_behavior.2 (fun _ => false) [cCr2] [] [cCr2] "jpg" [cCr2]
     { anchor_files := [], target_files := [cCr2],
       orphaned_files := [cCr2], deleted_files := [],
       anchor_type := "JPG", target_type := "RAW" } (by decide)⟩

/-- C3 counterexample: with one anchor file a.jpg and an empty target
list, find_matches returns the empty set, not the anchor stem set. -/
theorem matcher_result_cex :
    find_matches [aJpg] [] = (∅ : Finset String) ∧
    ([aJpg].map get_base_name).toFinset = {"a"} ∧
    (∅ : Finset String) ≠ {"a"} := by decide

/-- C3 amended: find_matches returns the set of distinct target stems
that also occur among the anchor stems, i.e. the intersection of the
target stem set with the anchor stem set, not the anchor stem set
itself. -/
theorem matcher_intersection (anchor_files target_files : List FPath) :
    find_matches anchor_files target_files
      = (target_files.map get_base_name).toFinset
          ∩ (anchor_files.map get_base_name).toFinset := by
  ext s
  rw [Finset.mem_inter, List.mem_toFinset, List.mem_toFinset]
  exact mem_find_matches anchor_files target_files s

/-- C4: in live deletion a per-file failure is caught, an error notice
naming the file is emitted, the remaining files are still processed,
and the failed file is excluded from the returned deleted list, which
is exactly the sub-sequence of files whose deletion succeeded. -/
theorem live_delete_error_handling (permFail : FPath → Bool) (fs l : List FPath)
    (hnd : l.Nodup) (hsub : ∀ p ∈ l, p ∈ fs) :
    (delete_files permFail false fs l).2.1 = l.filter (fun p => !permFail p) ∧
    ∀ p ∈ l, permFail p = true →
      DelEvent.errorDeleting p ∈ (delete_files permFail false fs l).2.2 := by
  induction l generalizing fs with
  | nil => simp [delete_files]
  | cons p rest ih =>
    have hp : p ∈ fs := hsub p (List.mem_cons_self p rest)
    have hnd' : rest.Nodup := hnd.of_cons
    have hpnot : p ∉ rest := (List.nodup_cons.mp hnd).1
    cases hpf : permFail p with
    | false =>
      have hsub' : ∀ q ∈ rest, q ∈ fs.erase p := by
        intro q hq
        have hqp : q ≠ p := fun h => hpnot (h ▸ hq)
        exact (List.mem_erase_of_ne hqp).mpr (hsub q (.tail p hq))
      have ihr := ih (fs.erase p) hnd' hsub'
      have hstep :
          delete_files permFail false fs (p :: rest)
            = ((delete_files permFail false (fs.erase p) rest).1,
               p :: (delete_files permFail false (fs.erase p) rest).2.1,
               DelEvent.deleted p
                 :: (delete_files permFail false (fs.erase p) rest).2.2) := by
        simp [delete_files, hp, hpf]
      rw [hstep]
      refine ⟨by simp [hpf, ihr.1], ?_⟩
      intro q hq hqf
      rcases List.mem_cons.mp hq with rfl | hq'
      · rw [hpf] at hqf; cases hqf
      · exact List.mem_cons_of_mem _ (ihr.2 q hq' hqf)
    | true =>
      have hsub' : ∀ q ∈ rest, q ∈ fs := fun q hq => hsub q (.tail p hq)
      have ihr := ih fs hnd' hsub'
      have hstep :
          delete_files permFail false fs (p :: rest)
            = ((delete_files permFail false fs rest).1,
               (delete_files permFail false fs rest).2.1,
               DelEvent.errorDeleting p
                 :: (delete_files permFail false fs rest).2.2) := by
        simp [delete_files, hpf]
      rw [hstep]
      refine ⟨by simp [hpf, ihr.1], ?_⟩
      intro q hq hqf
      rcases List.mem_cons.mp hq with rfl | hq'
      · exact List.mem_cons_self _ _
      · exact List.mem_cons_of_mem _ (ihr.2 q hq' hqf)

/-- Witness for C4 at the spec's Scenario E: two orphaned RAW files of
which b.cr2 fails with a permission error; the deleted list is exactly
the other orphan c.cr2, the error notice names b.cr2, and the driver
still exits with code 0. -/
theorem live_delete_error_handling_app :
    (delete_files pfB false [aJpg, bCr2, cCr2] [bCr2, cCr2]).2.1 = [cCr2] ∧
    DelEvent.errorDeleting bCr2
      ∈ (delete_files pfB false [aJpg, bCr2, cCr2] [bCr2, cCr2]).2.2 ∧
    exitCode (mainRun true [aJpg, bCr2, cCr2] "jpg" true "yes" pfB).1 = 0 :=
  ⟨((live_delete_error_handling pfB [aJpg, bCr2, cCr2] [bCr2, cCr2]
      (by decide) (by decide)).1).trans (by decide),
   (live_delete_error_handling pfB [aJpg, bCr2, cCr2] [bCr2, cCr2]
      (by decide) (by decide)).2 bCr2 (by decide) (by decide),
   by decide⟩

/-- C5: after a live run deletes the orphan set, the orphans are gone
from the re-scanned tree and the orphan computation on the post-deletion
state is empty, for either anchor orientation. -/
theorem round_trip_delete (files : List FPath) (hnd : files.Nodup)
    (anchorIsJpg : Bool) :
    let scan := discover_files files
    let anchor_files := if anchorIsJpg then scan.1 else scan.2
    let target_files := if anchorIsJpg then scan.2 else scan.1
    let orphans := find_orphaned_files anchor_files target_files
    let fs' := (delete_files (fun _ => false) false files orphans).1
    let rescan := discover_files fs'
    (∀ p ∈ orphans, p ∉ fs') ∧
    find_orphaned_files (if anchorIsJpg then rescan.1 else rescan.2)
      (if anchorIsJpg then rescan.2 else rescan.1) = [] := by
  intro scan anchor_files target_files orphans fs' rescan
  have han : anchor_files
      = if anchorIsJpg then (discover_files files).1
        else (discover_files files).2 := rfl
  have htg : target_files
      = if anchorIsJpg then (discover_files files).2
        else (discover_files files).1 := rfl
  have hor : orphans = find_orphaned_files anchor_files target_files := rfl
  have hfsdel : fs' = (delete_files (fun _ => false) false files orphans).1 := rfl
  have hredef : rescan = discover_files fs' := rfl
  have hfs' : fs' = files.filter (fun q => decide (q ∉ orphans)) := by
    rw [hfsdel]; exact delete_files_live_fs files orphans hnd
  have hre : rescan
      = ((discover_files files).1.filter (fun q => decide (q ∉ orphans)),
         (discover_files files).2.filter (fun q => decide (q ∉ orphans))) := by
    rw [hredef, hfs', discover_filter]
  have hanchor : ∀ a ∈ anchor_files, a ∉ orphans := by
    intro a ha hmem
    have htgt : a ∈ target_files := by
      rw [hor] at hmem
      exact orphans_subset _ _ a hmem
    rw [han] at ha
    rw [htg] at htgt
    cases anchorIsJpg
    · simp only [Bool.false_eq_true, if_false] at ha htgt
      exact discover_disjoint files a htgt ha
    · simp only [if_pos] at ha htgt
      exact discover_disjoint files a ha htgt
  refine ⟨?_, ?_⟩
  · intro p hp hmem
    rw [hfs'] at hmem
    have hd := (List.mem_filter.mp hmem).2
    simp only [decide_eq_true_eq] at hd
    exact hd hp
  · rw [hre]
    cases anchorIsJpg
    · simp only [Bool.false_eq_true, if_false]
      simp only [Bool.false_eq_true, if_false] at han htg
      rw [hor, han, htg]
      apply orphan_rescan
      intro a ha
      rw [← han] at ha
      rw [← han, ← htg, ← hor]
      exact hanchor a ha
    · simp only [if_pos]
      simp only [if_pos] at han htg
      rw [hor, han, htg]
      apply orphan_rescan
      intro a ha
      rw [← han] at ha
      rw [← han, ← htg, ← hor]
      exact hanchor a ha

/-- Witness for C5: the concrete tree of Scenario A with the JPG anchor;
after the live deletion the orphan b.cr2 is gone and the recomputed
orphan list is empty. -/
theorem round_trip_delete_app :
    (∀ p ∈ find_orphaned_files [aJpg] [aCr2, bCr2],
        p ∉ (delete_files (fun _ => false) false [aJpg, aCr2, bCr2]
              (find_orphaned_files [aJpg] [aCr2, bCr2])).1) ∧
    find_orphaned_files
      (discover_files ((delete_files (fun _ => false) false [aJpg, aCr2, bCr2]
          (find_orphaned_files [aJpg] [aCr2, bCr2])).1)).1
      (discover_files ((delete_files (fun _ => false) false [aJpg, aCr2, bCr2]
          (find_orphaned_files [aJpg] [aCr2, bCr2])).1)).2 = [] :=
  round_trip_delete [aJpg, aCr2, bCr2] (by decide) true

theorem classify_jpeg_iff (p : FPath) :
    classify p = .jpeg ↔ lowerStr (pySuffix p.name) ∈ jpg_extensions := by
  simp only [classify]
  split_ifs with h1 h2
  · simp [h1]
  · simp [h1]
  · simp [h1]

theorem classify_raw_iff (p : FPath) :
    classify p = .raw ↔ lowerStr (pySuffix p.name) ∈ raw_extensions := by
  have hdisj : ∀ s ∈ raw_extensions, s ∉ jpg_extensions := by decide
  simp only [classify]
  split_ifs with h1 h2
  · simp only [reduceCtorEq, false_iff]
    exact fun h => hdisj _ h h1
  · simp [h2]
  · simp [h2]

theorem mainRun_live_unfold (files : List FPath) (anchorArg userInput : String)
    (permFail : FPath → Bool)
    (hne : ¬((discover_files files).1 = [] ∧ (discover_files files).2 = [])) :
    mainRun true files anchorArg true userInput permFail
      = if lowerStr userInput ≠ "yes" then (MainOutcome.cancelled, files)
        else
          match organize_files permFail files (discover_files files).1
              (discover_files files).2 anchorArg false with
          | none => (MainOutcome.errored, files)
          | some (fs', r) => (MainOutcome.completed r, fs') := by
  show (if (discover_files files).1 = [] ∧ (discover_files files).2 = []
        then ((MainOutcome.nothingFound, files) : MainOutcome × List FPath)
        else
          if false = false ∧ lowerStr userInput ≠ "yes"
          then (MainOutcome.cancelled, files)
          else
            match organize_files permFail files (discover_files files).1
                (discover_files files).2 anchorArg false with
            | none => (MainOutcome.errored, files)
            | some (fs', r) => (MainOutcome.completed r, fs'))
      = _
  rw [if_neg hne]
  by_cases hy : lowerStr userInput ≠ "yes"
  · rw [if_pos ⟨rfl, hy⟩, if_pos hy]
  · rw [if_neg (fun hc => hy hc.2), if_neg hy]

/-- C6: with a non-empty scan, the live run proceeds only when the
confirmation input lowers to "yes"; any other input cancels the run
with exit code 0, touching no file and computing no orphans. -/
theorem live_confirmation_gate (files : List FPath) (anchorArg userInput : String)
    (permFail : FPath → Bool)
    (hne : ¬((discover_files files).1 = [] ∧ (discover_files files).2 = [])) :
    (lowerStr userInput ≠ "yes" →
        mainRun true files anchorArg true userInput permFail
          = (MainOutcome.cancelled, files) ∧
        exitCode (mainRun true files anchorArg true userInput permFail).1 = 0) ∧
    (lowerStr userInput = "yes" →
        (mainRun true files anchorArg true userInput permFail).1
          ≠ MainOutcome.cancelled) := by
  constructor
  · intro hno
    have hmain := mainRun_live_unfold files anchorArg userInput permFail hne
    rw [if_pos hno] at hmain
    exact ⟨hmain, by rw [hmain]; rfl⟩
  · intro hyes
    have hmain := mainRun_live_unfold files anchorArg userInput permFail hne
    rw [if_neg (not_not_intro hyes)] at hmain
    rw [hmain]
    rcases horg : organize_files permFail files (discover_files files).1
        (discover_files files).2 anchorArg false with _ | ⟨fs', r⟩
    · exact fun hc => MainOutcome.noConfusion hc
    · exact fun hc => MainOutcome.noConfusion hc

/-- Witness for C6 at the spec's Scenario D: a live run over a real tree
with the answer "no" is cancelled with exit code 0 and an unchanged
filesystem. -/
theorem live_confirmation_gate_app :
    mainRun true [aJpg] "jpg" true "no" (fun _ => false)
      = (MainOutcome.cancelled, [aJpg]) ∧
    exitCode (mainRun true [aJpg] "jpg" true "no" (fun _ => false)).1 = 0 :=
  (live_confirmation_gate [aJpg] "jpg" "no" (fun _ => false) (by decide)).1
    (by decide)

/-- C7: scanning classifies a file by its lower-cased final extension
against the fixed JPEG and RAW extension sets, so extension matching is
case-insensitive, while stem matching is exact case-sensitive equality
(IMG_001 does not protect img_001); files with any other extension are
ignored entirely. -/
theorem extension_case_classification :
    (∀ (files : List FPath) (p : FPath),
        (p ∈ (discover_files files).1 ↔
          p ∈ files ∧ lowerStr (pySuffix p.name) ∈ jpg_extensions) ∧
        (p ∈ (discover_files files).2 ↔
          p ∈ files ∧ lowerStr (pySuffix p.name) ∈ raw_extensions)) ∧
    (classify ⟨"", "IMG.JPG"⟩ = .jpeg ∧ classify ⟨"", "img.jpg"⟩ = .jpeg) ∧
    (find_orphaned_files [⟨"", "IMG_001.jpg"⟩] [⟨"", "img_001.cr2"⟩]
        = [⟨"", "img_001.cr2"⟩]) ∧
    (∀ p : FPath, lowerStr (pySuffix p.name) ∉ jpg_extensions →
        lowerStr (pySuffix p.name) ∉ raw_extensions →
        classify p = .ignored) := by
  refine ⟨?_, by decide, by decide, ?_⟩
  · intro files p
    rw [discover_eq_filter]
    constructor
    · simp [List.mem_filter, classify_jpeg_iff]
    · simp [List.mem_filter, classify_raw_iff]
  · intro p h1 h2
    simp only [classify]
    rw [if_neg h1, if_neg h2]

/-- Witness for C7: a text file has neither a JPEG nor a RAW extension
and is classified as ignored. -/
theorem extension_case_classification_app :
    classify ⟨"", "notes.txt"⟩ = .ignored :=
  extension_case_classification.2.2.2 ⟨"", "notes.txt"⟩ (by decide) (by decide)

/-- C8: when the root directory does not exist the driver stops with the
missing-directory outcome and exit code 1, with the filesystem untouched
and no scanning performed. -/
theorem missing_directory_aborts (files : List FPath)
    (anchorArg userInput : String) (execute : Bool) (permFail : FPath → Bool) :
    mainRun false files anchorArg execute userInput permFail
      = (MainOutcome.dirNotFound, files) ∧
    exitCode (mainRun false files anchorArg execute userInput permFail).1 = 1 :=
  ⟨rfl, rfl⟩

/-- C9: when the scan finds no JPG and no RAW file, the driver stops
with the nothing-found outcome and exit code 0, and no matcher, orphan,
deletion or report stage runs (the filesystem is returned unchanged). -/
theorem empty_scan_halts (files : List FPath) (anchorArg userInput : String)
    (execute : Bool) (permFail : FPath → Bool)
    (hempty : discover_files files = ([], [])) :
    mainRun true files anchorArg execute userInput permFail
      = (MainOutcome.nothingFound, files) ∧
    exitCode (mainRun true files anchorArg execute userInput permFail).1 = 0 := by
  have hmain : mainRun true files anchorArg execute userInput permFail
      = (MainOutcome.nothingFound, files) := by
    simp [mainRun, hempty]
  exact ⟨hmain, by rw [hmain]; rfl⟩

/-- Witness for C9: a directory containing only a text file scans to
zero JPG and zero RAW files and the driver halts at nothing-found with
exit code 0. -/
theorem empty_scan_halts_app :
    mainRun true [⟨"", "notes.txt"⟩] "jpg" false "" (fun _ => false)
      = (MainOutcome.nothingFound, [⟨"", "notes.txt"⟩]) ∧
    exitCode (mainRun true [⟨"", "notes.txt"⟩] "jpg" false "" (fun _ => false)).1
      = 0 :=
  empty_scan_halts [⟨"", "notes.txt"⟩] "jpg" "" false (fun _ => false) (by decide)

/-- C10: only the final extension is stripped to form the stem, so
a.b.jpg is a JPEG with stem a.b, protecting a.b.cr2 but not a.cr2; and
a name that is only a leading dot plus letters has an empty pathlib
suffix and is ignored by the scanner. -/
theorem multi_dot_and_hidden_names :
    pyStem "a.b.jpg" = "a.b" ∧ pySuffix "a.b.jpg" = ".jpg" ∧
    classify ⟨"", "a.b.jpg"⟩ = .jpeg ∧
    find_orphaned_files [⟨"", "a.b.jpg"⟩] [⟨"", "a.b.cr2"⟩, ⟨"", "a.cr2"⟩]
      = [⟨"", "a.cr2"⟩] ∧
    pySuffix ".jpg" = "" ∧
    discover_files [⟨"", ".jpg"⟩] = ([], []) := by decide

example : pyStem "a.b.jpg" = "a.b" := by decide

example : pySuffix ".jpg" = "" := by decide

example : classify aJpg = .jpeg := by decide

example : discover_files [aJpg, aCr2, bCr2] = ([aJpg], [aCr2, bCr2]) := by decide

example : find_orphaned_files [aJpg] [aCr2, bCr2] = [bCr2] := by decide

example :
    (mainRun true [aJpg, aCr2, bCr2] "jpg" true "yes" (fun _ => false)).2
      = [aJpg, aCr2] := by decide
